import Mathlib

/-!
Verification of the RapidBuild build-orchestration subsystem, shallowly
embedded from the Go source (backend/internal/worker/builder.go,
backend/internal/api/sse.go, the services layer and the SQL schema).

Rows of the relational store are Lean structures; tables are lists of rows;
SQL statements are translated to list operations.  Timestamp columns
(`created_at`, `updated_at`, `submitted_at`, `completed_at`, event
timestamps) are elided: no claim under consideration depends on them, and
no control flow in the embedded code reads them.  Logging (`log.Printf`)
is not an observable effect; publishing to Redis and writing to Postgres
are.
-/

namespace RapidBuild

/-- A row of the `versions` table (models.Version; schema in the SQL file). -/
structure Version where
  id : String
  appID : String
  versionNumber : Int
  status : String
  s3CodePath : Option String
  vercelURL : Option String
  vercelDeployID : Option String
  buildLog : Option String
  errorMessage : Option String
deriving Repr, DecidableEq

/-- A row of the `apps` table (models.App). -/
structure App where
  id : String
  userID : String
  name : String
  description : String
  status : String
  prodVersion : Option Int
deriving Repr, DecidableEq

/-- A row of the `comments` table (models.Comment). -/
structure Comment where
  id : String
  appID : String
  versionID : Option String
  userID : String
  pagePath : String
  elementPath : String
  content : String
  status : String
deriving Repr, DecidableEq

/-! ## VersionService (services layer)

`UpdateVersion` builds a dynamic `UPDATE versions SET …` from a map.  The
map keys used by the builder are `status`, `s3_code_path`, `vercel_url`,
`vercel_deploy_id`, `build_log` and `error_message`; a present key adds a
`SET` clause.  (The legacy aliases `deploy_url`/`s3_key` are never passed
by any caller in the repository and are not modelled.)  `error_message`
is passed as a `*string`, so its clause can set the column to NULL. -/

structure VersionUpdates where
  status : Option String
  s3CodePath : Option String
  vercelURL : Option String
  vercelDeployID : Option String
  buildLog : Option String
  errorMessage : Option (Option String)
deriving Repr, DecidableEq

def noUpdates : VersionUpdates :=
  ⟨none, none, none, none, none, none⟩

def VersionUpdates.isEmptyUpdate (u : VersionUpdates) : Bool :=
  u.status.isNone && u.s3CodePath.isNone && u.vercelURL.isNone &&
  u.vercelDeployID.isNone && u.buildLog.isNone && u.errorMessage.isNone

def applyVersionUpdates (u : VersionUpdates) (v : Version) : Version :=
  { v with
    status := match u.status with | some s => s | none => v.status
    s3CodePath := match u.s3CodePath with | some s => some s | none => v.s3CodePath
    vercelURL := match u.vercelURL with | some s => some s | none => v.vercelURL
    vercelDeployID := match u.vercelDeployID with | some s => some s | none => v.vercelDeployID
    buildLog := match u.buildLog with | some s => some s | none => v.buildLog
    errorMessage := match u.errorMessage with | some e => e | none => v.errorMessage }

/-- VersionService.GetVersion: `SELECT … FROM versions WHERE id = $1`
(the first row whose id matches). -/
def getVersion (db : List Version) (versionID : String) : Option Version :=
  match db with
  | [] => none
  | v :: vs => if v.id == versionID then some v else getVersion vs versionID

/-- VersionService.UpdateVersion: errors when no `SET` clause was built or
when the `RETURNING` row does not exist; otherwise updates the row. -/
def updateVersion (db : List Version) (versionID : String) (u : VersionUpdates) :
    Except String (List Version) :=
  if u.isEmptyUpdate then Except.error "no fields to update"
  else
    match getVersion db versionID with
    | none => Except.error "failed to update version"
    | some _ =>
        Except.ok (db.map fun v => if v.id == versionID then applyVersionUpdates u v else v)

/-- VersionService.ListVersions sorts with `ORDER BY version_number DESC`;
modelled as insertion sort, descending by `version_number`. -/
def versionDescInsert (v : Version) : List Version → List Version
  | [] => [v]
  | w :: ws =>
      if v.versionNumber ≤ w.versionNumber then w :: versionDescInsert v ws
      else v :: w :: ws

def sortVersionsDesc (l : List Version) : List Version :=
  l.foldr versionDescInsert []

/-- VersionService.ListVersions:
`SELECT … FROM versions WHERE app_id = $1 ORDER BY version_number DESC`. -/
def listVersions (db : List Version) (appID : String) : List Version :=
  sortVersionsDesc (db.filter (fun v => v.appID == appID))

/-- SQL `COALESCE(MAX(version_number), 0)` over the app's versions
(VersionService.CreateVersion). -/
def maxVersionNumber (db : List Version) (appID : String) : Int :=
  match db.filter (fun v => v.appID == appID) with
  | [] => 0
  | v :: vs => vs.foldl (fun m w => max m w.versionNumber) v.versionNumber

/-- VersionService.CreateVersion: reads the max version number, inserts a
row with `version_number = max + 1` and `status = "pending"`.  The UUID
generated by the service is passed in as `newID`. -/
def createVersion (db : List Version) (newID appID : String) : Version × List Version :=
  let v : Version :=
    { id := newID, appID := appID,
      versionNumber := maxVersionNumber db appID + 1,
      status := "pending",
      s3CodePath := none, vercelURL := none, vercelDeployID := none,
      buildLog := none, errorMessage := none }
  (v, db ++ [v])

/-! ## AppService -/

structure AppUpdates where
  name : Option String
  description : Option String
  status : Option String
  prodVersion : Option Int
deriving Repr, DecidableEq

def noAppUpdates : AppUpdates := ⟨none, none, none, none⟩

def applyAppUpdates (u : AppUpdates) (a : App) : App :=
  { a with
    name := match u.name with | some s => s | none => a.name
    description := match u.description with | some s => s | none => a.description
    status := match u.status with | some s => s | none => a.status
    prodVersion := match u.prodVersion with | some n => some n | none => a.prodVersion }

/-- The row filter of AppService.UpdateApp: `WHERE id = $n` plus
`AND user_id = $m` only when a non-empty `userID` was supplied. -/
def appRowMatch (appID userID : String) (a : App) : Bool :=
  a.id == appID && (userID == "" || a.userID == userID)

/-- AppService.UpdateApp: dynamic `UPDATE apps SET updated_at = … [, …]`;
errors when the `RETURNING` row does not exist. -/
def updateApp (apps : List App) (appID userID : String) (u : AppUpdates) :
    Except String (List App) :=
  match apps.find? (appRowMatch appID userID) with
  | none => Except.error "failed to update app"
  | some _ =>
      Except.ok (apps.map fun a => if appRowMatch appID userID a then applyAppUpdates u a else a)

/-- VersionService.PromoteVersion: fetch the version, set the app's
`prod_version` to its number, then set the version's status to
`promoted`.  No guard inspects the version's current status. -/
def promoteVersion (versions : List Version) (apps : List App) (versionID : String) :
    Except String (List Version × List App) :=
  match getVersion versions versionID with
  | none => Except.error "version not found"
  | some v =>
      match updateApp apps v.appID "" { noAppUpdates with prodVersion := some v.versionNumber } with
      | Except.error e => Except.error e
      | Except.ok apps' =>
          match updateVersion versions versionID { noUpdates with status := some "promoted" } with
          | Except.error e => Except.error e
          | Except.ok versions' => Except.ok (versions', apps')

/-! ## Workspace seeding (Builder.setupWorkspace) -/

/-- The predicate of the scan in Builder.setupWorkspace:
`versions[i].Status == "completed" && versions[i].S3CodePath != nil && *versions[i].S3CodePath != ""`. -/
def completedWithArtifact (v : Version) : Bool :=
  v.status == "completed" &&
    (match v.s3CodePath with | some p => p != "" | none => false)

/-- The loop `for i := len(versions) - 1; i >= 0; i--` breaking on the
first match: the first matching element counting from the END of the
list, i.e. `find?` on the reversed list. -/
def findSeedVersion (versions : List Version) : Option Version :=
  versions.reverse.find? completedWithArtifact

inductive SeedSource where
  | artifact (s3Path : String)
  | starterCode
deriving Repr, DecidableEq

/-- Builder.setupWorkspace: list the app's versions (ordered by
`version_number DESC`); with no versions, mirror the starter tree;
otherwise scan backwards for a completed version with a non-empty
artifact key and extract its archive, falling back to the starter tree. -/
def setupWorkspace (db : List Version) (appID : String) : SeedSource :=
  let versions := listVersions db appID
  if versions.isEmpty then SeedSource.starterCode
  else
    match findSeedVersion versions with
    | some v => SeedSource.artifact (v.s3CodePath.getD "")
    | none => SeedSource.starterCode

/-! ## Observable effects of a build run (Builder.BuildApp)

Postgres writes, Redis publishes and external-tool invocations, in
program order.  `publishProgress` is Builder.sendProgress (a publish on
the topic `build:progress:{version_id}`); `runPrebuild` marks an
invocation of `vercel build` (Builder.buildForVercel); `runRepairAgent`
marks an agent invocation by Builder.fixBuildErrors. -/

inductive Effect where
  | publishProgress (versionID status message : String)
  | updateVersionStatus (versionID status : String) (errorMessage : Option String)
  | updateBuildLog (versionID combinedOutput : String)
  | updateAppStatus (appID status : String)
  | runPrebuild (attempt : Nat)
  | runRepairAgent (attempt : Nat)
deriving Repr, DecidableEq

def Effect.isProgressEvent : Effect → Bool
  | Effect.publishProgress _ _ _ => true
  | _ => false

/-- Builder.handleError: publish a `failed` progress event whose message
is `message ++ ": " ++ errMsg`, set the version to `failed` with
`error_message = errMsg` (NOT the prefixed message), then look up the
version's app and set the app's status to `error`.  `appID` is the
result of that lookup (`none` when GetVersion fails, in which case the
app update is skipped). -/
def handleErrorEffects (versionID message errMsg : String) (appID : Option String) :
    List Effect :=
  [Effect.publishProgress versionID "failed" (message ++ ": " ++ errMsg),
   Effect.updateVersionStatus versionID "failed" (some errMsg)] ++
  (match appID with
   | some a => [Effect.updateAppStatus a "error"]
   | none => [])

/-- The deferred recover at the top of Builder.BuildApp: on a panic with
rendered value `panicValue`, it updates the version to `failed` with
`error_message = "Build panic: " ++ panicValue` and does nothing else —
in particular it performs no sendProgress publish. -/
def buildPanicHandlerEffects (versionID panicValue : String) : List Effect :=
  [Effect.updateVersionStatus versionID "failed" (some ("Build panic: " ++ panicValue))]

/-- The effects of one Builder.fixBuildErrors call: run the agent, then
unconditionally write the repair run's combined output to `build_log`
(the call site's comment reads "Append fix attempt to build log", but
the service's UPDATE sets the column). -/
def fixBuildErrorsEffects (versionID : String) (attempt : Nat) (transcript : String) :
    List Effect :=
  [Effect.runRepairAgent attempt, Effect.updateBuildLog versionID transcript]

/-- The build/fix retry loop of Builder.BuildApp
(`for attempt := 1; attempt <= 3; attempt++`).

`buildOutcome attempt` is the result of Builder.buildForVercel on that
attempt: `none` on success, `some msg` on failure where `msg` is the
combined output (or timeout message).  `fixOutcome attempt` is the
result of Builder.fixBuildErrors: the repair transcript it logs, paired
with `some err` when the repair run itself failed.  `appID` is the
GetVersion lookup result used by handleError.  Returns the effect trace
and `Except.error` exactly when BuildApp returns the handleError error.
The fuel argument is called with 3, matching the loop bound; the loop
can only exit by `break` (success) or `return` (handleError), so the
fuel-0 case is unreachable from `runBuildFixLoop`. -/
def buildFixLoop (versionID : String) (appID : Option String)
    (buildOutcome : Nat → Option String) (fixOutcome : Nat → String × Option String) :
    Nat → Nat → List Effect × Except String Unit
  | 0, _ => ([], Except.ok ())
  | fuel + 1, attempt =>
      let progressEv := Effect.publishProgress versionID "building"
        (if attempt == 1 then "Building with Vercel..."
         else "Retrying build (attempt " ++ toString attempt ++ "/3)...")
      match buildOutcome attempt with
      | none => ([progressEv, Effect.runPrebuild attempt], Except.ok ())
      | some buildErr =>
          if attempt ≥ 3 then
            ([progressEv, Effect.runPrebuild attempt] ++
               handleErrorEffects versionID "Build failed after 3 attempts" buildErr appID,
             Except.error ("Build failed after 3 attempts: " ++ buildErr))
          else
            let fixEv := Effect.publishProgress versionID "building"
              ("Build failed (attempt " ++ toString attempt ++ "/3), Claude is fixing errors...")
            match fixOutcome attempt with
            | (transcript, some fixErr) =>
                ([progressEv, Effect.runPrebuild attempt, fixEv] ++
                   fixBuildErrorsEffects versionID attempt transcript ++
                   handleErrorEffects versionID "Claude failed to fix build errors" fixErr appID,
                 Except.error ("Claude failed to fix build errors: " ++ fixErr))
            | (transcript, none) =>
                let rest := buildFixLoop versionID appID buildOutcome fixOutcome fuel (attempt + 1)
                ([progressEv, Effect.runPrebuild attempt, fixEv] ++
                   fixBuildErrorsEffects versionID attempt transcript ++ rest.1,
                 rest.2)

def runBuildFixLoop (versionID : String) (appID : Option String)
    (buildOutcome : Nat → Option String) (fixOutcome : Nat → String × Option String) :
    List Effect × Except String Unit :=
  buildFixLoop versionID appID buildOutcome fixOutcome 3 1

def prebuildCount (es : List Effect) : Nat :=
  es.countP (fun e => match e with | Effect.runPrebuild _ => true | _ => false)

def repairCount (es : List Effect) : Nat :=
  es.countP (fun e => match e with | Effect.runRepairAgent _ => true | _ => false)

/-- The subsequence of tool invocations, prebuild and repair-agent. -/
def invocationMarkers (es : List Effect) : List Effect :=
  es.filter (fun e => match e with
    | Effect.runPrebuild _ => true
    | Effect.runRepairAgent _ => true
    | _ => false)

/-- The build-log write sites: Builder.runClaude (lines 362-365) and
Builder.fixBuildErrors (lines 484-487) both call
`UpdateVersion(ctx, versionID, {"build_log": combinedOutput})` and
discard the returned error. -/
def writeBuildLog (db : List Version) (versionID combinedOutput : String) :
    List Version :=
  match updateVersion db versionID { noUpdates with buildLog := some combinedOutput } with
  | Except.ok db' => db'
  | Except.error _ => db

/-! ## Spawn contexts of the two build-run call sites -/

inductive SpawnCtx where
  | background
  | request
deriving Repr, DecidableEq

/-- AppHandler.CreateApp:
`go h.Builder.BuildApp(context.Background(), …)` — a fresh root context. -/
def createAppSpawnContext : SpawnCtx := SpawnCtx.background

/-- AppHandler.CreateVersion:
`go h.Builder.BuildApp(r.Context(), …)` — the HTTP request's context. -/
def createVersionSpawnContext : SpawnCtx := SpawnCtx.request

/-! ## Archive extraction (Builder.downloadFromS3)

Filesystem paths are lists of segments; the workspace root is an
absolute path.  Go's `filepath.Join(a, b)` is `Clean(a + "/" + b)`;
on the segments of an absolute path, Clean drops empty and `.` segments
and makes `..` pop the previous segment (at the root, `..` is dropped,
as in `filepath.Clean("/../x") = "/x"`). -/

def cleanSegs (segs : List String) : List String :=
  segs.foldl
    (fun acc s =>
      if s = "" ∨ s = "." then acc
      else if s = ".." then acc.dropLast
      else acc ++ [s])
    []

/-- Splitting a path string on `'/'` (the semantics of
`strings.Split(name, "/")`, written structurally). -/
def splitSlashAux : List Char → List (List Char)
  | [] => [[]]
  | c :: cs =>
      match splitSlashAux cs with
      | [] => []
      | g :: gs => if c = '/' then [] :: g :: gs else (c :: g) :: gs

def splitSlash (s : String) : List String :=
  (splitSlashAux s.toList).map fun cs => ⟨cs⟩

/-- `filepath.Join(workspaceDir, header.Name)` on segment lists. -/
def joinPath (base : List String) (name : String) : List String :=
  cleanSegs (base ++ splitSlash name)

structure TarEntry where
  name : String
  isDir : Bool
deriving Repr, DecidableEq

inductive FsWrite where
  | mkdirAll (path : List String)
  | createFile (path : List String)
deriving Repr, DecidableEq

/-- The extraction loop of Builder.downloadFromS3: for every archive
entry it computes `target := filepath.Join(workspaceDir, header.Name)`
and writes there — a directory via MkdirAll, a file via Create.  No
entry is filtered or rejected. -/
def extractEntries (workspace : List String) (entries : List TarEntry) :
    List FsWrite :=
  entries.map fun e =>
    let target := joinPath workspace e.name
    if e.isDir then FsWrite.mkdirAll target else FsWrite.createFile target

/-- A target path escapes the workspace root when the root's segments
are not a prefix of it. -/
def escapesRoot (workspace target : List String) : Bool :=
  !(workspace.isPrefixOf target)

/-! ## Progress bridge (AppHandler.SSEHandler) -/

/-- models.BuildProgress (timestamp elided). -/
structure BuildProgress where
  versionID : String
  status : String
  message : String
deriving Repr, DecidableEq

/-- One receive on the subscribed Redis channel: either a payload that
fails to unmarshal (skipped with `continue`) or a parsed progress
event. -/
inductive ChanMsg where
  | malformed (payload : String)
  | progress (p : BuildProgress)
deriving Repr, DecidableEq

/-- A server-sent event frame written to the response (heartbeat comments
elided: they are not `data:` frames). -/
inductive Frame where
  | connected
  | event (versionID status message : String)
deriving Repr, DecidableEq

def Frame.isTerminal : Frame → Bool
  | Frame.connected => false
  | Frame.event _ s _ => s == "completed" || s == "failed"

/-- The receive loop of SSEHandler: forward each parsed event and return
immediately after writing the first one whose status is `completed` or
`failed`.  `msgs` is the sequence of channel receives delivered before
the client disconnects or the 10-hour ceiling fires. -/
def sseLoop : List ChanMsg → List Frame
  | [] => []
  | ChanMsg.malformed _ :: rest => sseLoop rest
  | ChanMsg.progress p :: rest =>
      Frame.event p.versionID p.status p.message ::
        (if p.status == "completed" || p.status == "failed" then [] else sseLoop rest)

/-- The frames SSEHandler writes for one connection: when the version is
already `completed`/`failed` at connect time, one synthetic event
(`message = "Build " ++ status`) and return; otherwise the `connected`
frame followed by the forwarding loop.  (The Redis-unconfigured and
subscribe-failure error paths are outside the claims and not modelled.) -/
def sseWrites (status versionID : String) (msgs : List ChanMsg) : List Frame :=
  if status == "completed" || status == "failed" then
    [Frame.event versionID status ("Build " ++ status)]
  else
    Frame.connected :: sseLoop msgs

def terminalFrameCount (fs : List Frame) : Nat :=
  fs.countP (fun f => f.isTerminal)

def hasTerminalMsg (msgs : List ChanMsg) : Bool :=
  msgs.any fun m =>
    match m with
    | ChanMsg.progress p => p.status == "completed" || p.status == "failed"
    | ChanMsg.malformed _ => false

/-! ## CommentService and the version-creation endpoint -/

/-- CommentService.SubmitComments:
`UPDATE comments SET version_id = $1, status = 'submitted' WHERE id = ANY($3) AND status = 'draft'`,
then error when zero rows were affected. -/
def submitComments (comments : List Comment) (commentIDs : List String)
    (versionID : String) : Except String (List Comment) :=
  let affected := comments.countP (fun c => commentIDs.contains c.id && c.status == "draft")
  if affected == 0 then Except.error "no draft comments found to submit"
  else
    Except.ok (comments.map fun c =>
      if commentIDs.contains c.id && c.status == "draft" then
        { c with versionID := some versionID, status := "submitted" }
      else c)

/-- The outcome of one AppHandler.CreateVersion request, after the auth
and app-ownership checks have passed (they precede everything the
claims are about). -/
structure CreateVersionResult where
  versions : List Version
  comments : List Comment
  response : Except String Version
  buildSpawned : Bool
  spawnContext : Option SpawnCtx
deriving Repr

/-- AppHandler.CreateVersion: insert the version (status `pending`);
when the request carries comment ids, submit them — on error respond
with 500 and return WITHOUT spawning the build and without rolling the
inserted row back; otherwise spawn `go BuildApp(r.Context(), …)` and
respond with the created version. -/
def createVersionEndpoint (versions : List Version) (comments : List Comment)
    (appID newVersionID : String) (reqComments : List String) : CreateVersionResult :=
  let r := createVersion versions newVersionID appID
  if reqComments.isEmpty then
    { versions := r.2, comments := comments, response := Except.ok r.1,
      buildSpawned := true, spawnContext := some createVersionSpawnContext }
  else
    match submitComments comments reqComments r.1.id with
    | Except.error e =>
        { versions := r.2, comments := comments, response := Except.error e,
          buildSpawned := false, spawnContext := none }
    | Except.ok comments' =>
        { versions := r.2, comments := comments', response := Except.ok r.1,
          buildSpawned := true, spawnContext := some createVersionSpawnContext }

/-! ## Fixtures -/

/-- A completed version 1 with an artifact key. -/
def v1Done : Version :=
  ⟨"v1", "a1", 1, "completed", some "apps/a1/versions/v1/code.tar.gz",
   some "https://x1.vercel.app", some "v1", none, none⟩

/-- A completed version 2 with an artifact key — the app's latest. -/
def v2Done : Version :=
  ⟨"v2", "a1", 2, "completed", some "apps/a1/versions/v2/code.tar.gz",
   some "https://x2.vercel.app", some "v2", none, none⟩

/-- An app row. -/
def a1App : App := ⟨"a1", "u1", "My App", "", "active", none⟩

/-- A version that has not completed. -/
def v1Pending : Version := ⟨"v1", "a1", 1, "pending", none, none, none, none, none⟩

/-! ## Helper lemmas -/

/-- applyVersionUpdates never changes the row id. -/
theorem applyVersionUpdates_id (u : VersionUpdates) (v : Version) :
    (applyVersionUpdates u v).id = v.id := rfl

/-- Updating the matching rows commutes with looking the row up. -/
theorem getVersion_map_update (db : List Version) (vid : String) (u : VersionUpdates)
    (v : Version) (h : getVersion db vid = some v) :
    getVersion (db.map fun w => if w.id == vid then applyVersionUpdates u w else w) vid
      = some (applyVersionUpdates u v) := by
  induction db with
  | nil => simp [getVersion] at h
  | cons w ws ih =>
      by_cases hw : (w.id == vid) = true
      · unfold getVersion at h
        rw [if_pos hw] at h
        injection h with h2
        simp only [List.map_cons, hw, if_true]
        unfold getVersion
        rw [if_pos (show ((applyVersionUpdates u w).id == vid) = true from hw), h2]
      · unfold getVersion at h
        rw [if_neg (by simp [hw])] at h
        simp only [List.map_cons, hw, if_false, Bool.false_eq_true]
        unfold getVersion
        rw [if_neg (by simp [hw])]
        exact ih h

theorem foldl_max_ge_init (l : List Version) (i : Int) :
    i ≤ l.foldl (fun m w => max m w.versionNumber) i := by
  induction l generalizing i with
  | nil => exact le_refl i
  | cons a as ih => exact le_trans (le_max_left i a.versionNumber) (ih _)

theorem foldl_max_ge_mem (l : List Version) :
    ∀ (i : Int) (w : Version), w ∈ l →
      w.versionNumber ≤ l.foldl (fun m w => max m w.versionNumber) i := by
  induction l with
  | nil => intro i w hw; cases hw
  | cons a as ih =>
      intro i w hw
      rcases List.mem_cons.mp hw with h | h
      · subst h
        exact le_trans (le_max_right i w.versionNumber) (foldl_max_ge_init as _)
      · exact ih _ _ h

theorem foldl_max_attained (l : List Version) :
    ∀ i : Int,
      l.foldl (fun m w => max m w.versionNumber) i = i ∨
        ∃ w ∈ l, l.foldl (fun m w => max m w.versionNumber) i = w.versionNumber := by
  induction l with
  | nil => intro i; exact Or.inl rfl
  | cons a as ih =>
      intro i
      rcases ih (max i a.versionNumber) with h | ⟨w, hw, h⟩
      · rcases max_choice i a.versionNumber with hm | hm
        · exact Or.inl (by simpa [hm] using h)
        · exact Or.inr ⟨a, List.mem_cons_self _ _, by simpa [hm] using h⟩
      · exact Or.inr ⟨w, List.mem_cons_of_mem _ hw, h⟩

/-- Every version of the app has a number bounded by `maxVersionNumber`. -/
theorem maxVersionNumber_ge (db : List Version) (appID : String) (w : Version)
    (hw : w ∈ db) (ha : w.appID = appID) :
    w.versionNumber ≤ maxVersionNumber db appID := by
  have hmem : w ∈ db.filter (fun v => v.appID == appID) :=
    List.mem_filter.mpr ⟨hw, by simp [ha]⟩
  unfold maxVersionNumber
  cases hfil : db.filter (fun v => v.appID == appID) with
  | nil => rw [hfil] at hmem; cases hmem
  | cons v vs =>
      rw [hfil] at hmem
      rcases List.mem_cons.mp hmem with h | h
      · subst h; exact foldl_max_ge_init vs _
      · exact foldl_max_ge_mem vs _ w h

/-- When the app has versions, `maxVersionNumber` is one of their numbers. -/
theorem maxVersionNumber_attained (db : List Version) (appID : String)
    (h : db.filter (fun v => v.appID == appID) ≠ []) :
    ∃ w ∈ db, w.appID = appID ∧ maxVersionNumber db appID = w.versionNumber := by
  unfold maxVersionNumber
  cases hfil : db.filter (fun v => v.appID == appID) with
  | nil => exact absurd hfil h
  | cons v vs =>
      have hv : v ∈ db.filter (fun w => w.appID == appID) := by
        rw [hfil]; exact List.mem_cons_self _ _
      have hv' := List.mem_filter.mp hv
      rcases foldl_max_attained vs v.versionNumber with hm | ⟨w, hw, hm⟩
      · exact ⟨v, hv'.1, by simpa using hv'.2, hm⟩
      · have hwmem : w ∈ db.filter (fun u => u.appID == appID) := by
          rw [hfil]; exact List.mem_cons_of_mem _ hw
        have hw' := List.mem_filter.mp hwmem
        exact ⟨w, hw'.1, by simpa using hw'.2, hm⟩

/-! ## Claims -/

/-- Claim C1.  The claim says seeding fetches the artifact of the LATEST
(highest `version_number`) completed version.  In the code, ListVersions
returns the rows ordered by `version_number` DESC while setupWorkspace
scans them from the last index downward and stops at the first match,
so it extracts the artifact of the OLDEST completed version: with two
completed versions 1 and 2 (both holding artifact keys), the workspace
is seeded from version 1's artifact, not version 2's. -/
theorem seed_picks_oldest_completed_version :
    listVersions [v1Done, v2Done] "a1" = [v2Done, v1Done] ∧
    setupWorkspace [v1Done, v2Done] "a1"
      = SeedSource.artifact "apps/a1/versions/v1/code.tar.gz" ∧
    v2Done.versionNumber = 2 ∧ v2Done.status = "completed" ∧
    v2Done.s3CodePath = some "apps/a1/versions/v2/code.tar.gz" := by
  decide

/-- Claim C2, counterexample.  PromoteVersion carries no completed-only
guard: promoting a version whose status is `pending` succeeds and sets
its status to `promoted`, contradicting the claim that PromoteVersion
never sets `promoted` from a non-`completed` status. -/
theorem promote_from_pending_succeeds :
    v1Pending.status = "pending" ∧
    promoteVersion [v1Pending] [a1App] "v1"
      = Except.ok ([{ v1Pending with status := "promoted" }],
                   [{ a1App with prodVersion := some 1 }]) :=
  ⟨rfl, rfl⟩

/-- Claim C2, amended.  PromoteVersion transitions ANY existing version
of an existing app to `promoted`, regardless of its current status (no
guard restricts the transition to `completed`), and sets the app's
`prod_version` to the version's number. -/
theorem promoteVersion_sets_promoted_for_any_status
    (versions : List Version) (apps : List App) (vid : String) (v : Version)
    (hv : getVersion versions vid = some v)
    (ha : (apps.find? (appRowMatch v.appID "")).isSome = true) :
    ∃ versions' apps',
      promoteVersion versions apps vid = Except.ok (versions', apps') ∧
      (getVersion versions' vid).map Version.status = some "promoted" := by
  obtain ⟨a, hfind⟩ := Option.isSome_iff_exists.mp ha
  refine
    ⟨versions.map (fun w =>
        if w.id == vid then
          applyVersionUpdates { noUpdates with status := some "promoted" } w
        else w),
     apps.map (fun x =>
        if appRowMatch v.appID "" x then
          applyAppUpdates { noAppUpdates with prodVersion := some v.versionNumber } x
        else x),
     ?_, ?_⟩
  · simp only [promoteVersion, hv, updateApp, hfind, updateVersion, VersionUpdates.isEmptyUpdate,
      Option.isNone_some, Bool.false_and, Bool.false_eq_true, if_false, ite_false]
  · rw [getVersion_map_update versions vid _ v hv]
    rfl

/-- Witness for the amended C2 theorem at a concrete pending version. -/
theorem promoteVersion_sets_promoted_for_any_status_witness :
    ∃ versions' apps',
      promoteVersion [v1Pending] [a1App] "v1" = Except.ok (versions', apps') ∧
      (getVersion versions' "v1").map Version.status = some "promoted" :=
  promoteVersion_sets_promoted_for_any_status [v1Pending] [a1App] "v1" v1Pending
    (by decide) (by decide)

/-- Claim C3.  The deferred recover in Builder.BuildApp transitions the
version to `failed` with a message describing the panic cause, but it
publishes NO progress event: the claimed terminal `failed` event on the
version's topic is never emitted on the panic path. -/
theorem panic_recovery_emits_no_progress_event :
    buildPanicHandlerEffects "v1" "assignment to entry in nil map"
      = [Effect.updateVersionStatus "v1" "failed"
           (some "Build panic: assignment to entry in nil map")] ∧
    (buildPanicHandlerEffects "v1" "assignment to entry in nil map").all
        (fun e => !e.isProgressEvent) = true := by
  decide

/-- Claim C4.  AppHandler.CreateApp spawns the build with a fresh
`context.Background()`, but AppHandler.CreateVersion spawns it with the
request's `r.Context()`: not every spawn passes a fresh root context. -/
theorem createVersion_spawns_with_request_context :
    createAppSpawnContext = SpawnCtx.background ∧
    createVersionSpawnContext = SpawnCtx.request ∧
    createVersionSpawnContext ≠ SpawnCtx.background ∧
    (createVersionEndpoint [] [] "a1" "vNew" []).spawnContext
      = some SpawnCtx.request := by
  refine ⟨rfl, rfl, by decide, rfl⟩

/-- Claim C5.  The extraction loop of Builder.downloadFromS3 performs no
path check at all: an archive entry named `../evil.txt` is written to
`filepath.Join(workspaceDir, "../evil.txt")`, which normalizes to a path
OUTSIDE the workspace root — the entry is written, not rejected. -/
theorem extraction_writes_escaping_entry :
    extractEntries ["tmp", "rapidbuild-workspaces", "app1"] [⟨"../evil.txt", false⟩]
      = [FsWrite.createFile ["tmp", "rapidbuild-workspaces", "evil.txt"]] ∧
    escapesRoot ["tmp", "rapidbuild-workspaces", "app1"]
        ["tmp", "rapidbuild-workspaces", "evil.txt"] = true := by
  decide

/-- Claim C6.  Both build-log writes go through
`UPDATE versions SET build_log = $n`, which REPLACES the column: after
an initial agent transcript and one repair transcript, `build_log`
holds only the repair transcript — the initial transcript is gone, so
`build_log` is not append-only. -/
theorem build_log_overwritten_by_repair :
    (getVersion
        (writeBuildLog
          (writeBuildLog [⟨"v1", "a1", 1, "building", none, none, none, none, none⟩]
            "v1" "INITIAL AGENT TRANSCRIPT")
          "v1" "REPAIR TRANSCRIPT 1")
        "v1").map Version.buildLog
      = some (some "REPAIR TRANSCRIPT 1") ∧
    ¬ ("INITIAL AGENT TRANSCRIPT".toList <:+: "REPAIR TRANSCRIPT 1".toList) := by
  decide

/-! ## C7: the retry loop -/

/-- A scenario in which `vercel build` fails on all three attempts. -/
def threeFailures : Nat → Option String := fun n =>
  some (if n = 1 then "ERR1" else if n = 2 then "ERR2" else "ERR3")

/-- Repair runs that always succeed, logging a transcript. -/
def repairsSucceed : Nat → String × Option String := fun n =>
  (if n = 1 then "FIX1" else "FIX2", none)

/-- Claim C7, counterexample.  When all three prebuild attempts fail,
the version's stored `error_message` is the FINAL PREBUILD OUTPUT alone
("ERR3"), which does not begin with "Build failed after 3 attempts":
handleError stores `err.Error()` in `error_message` and puts the
prefixed message only in the progress event and the returned error. -/
theorem error_message_not_prefixed_after_three_failures :
    (runBuildFixLoop "v1" (some "a1") threeFailures repairsSucceed).2
      = Except.error "Build failed after 3 attempts: ERR3" ∧
    Effect.updateVersionStatus "v1" "failed" (some "ERR3")
      ∈ (runBuildFixLoop "v1" (some "a1") threeFailures repairsSucceed).1 ∧
    ¬ ("Build failed after 3 attempts".toList <+: "ERR3".toList) :=
  ⟨rfl, by decide, by decide⟩

theorem invocationMarkers_handleError (versionID message errMsg : String)
    (appID : Option String) :
    invocationMarkers (handleErrorEffects versionID message errMsg appID) = [] := by
  cases appID <;> rfl

theorem filter_markers_handleError (versionID message errMsg : String)
    (appID : Option String) :
    List.filter (fun e => match e with
      | Effect.runPrebuild _ => true
      | Effect.runRepairAgent _ => true
      | _ => false) (handleErrorEffects versionID message errMsg appID) = [] := by
  cases appID <;> rfl

theorem countP_prebuild_handleError (versionID message errMsg : String)
    (appID : Option String) :
    List.countP (fun e => match e with | Effect.runPrebuild _ => true | _ => false)
      (handleErrorEffects versionID message errMsg appID) = 0 := by
  cases appID <;> rfl

theorem countP_repair_handleError (versionID message errMsg : String)
    (appID : Option String) :
    List.countP (fun e => match e with | Effect.runRepairAgent _ => true | _ => false)
      (handleErrorEffects versionID message errMsg appID) = 0 := by
  cases appID <;> rfl

theorem prebuildCount_eq_markers (es : List Effect) :
    prebuildCount es = (invocationMarkers es).countP
      (fun e => match e with | Effect.runPrebuild _ => true | _ => false) := by
  unfold prebuildCount invocationMarkers
  rw [List.countP_filter]
  congr 1
  funext e
  cases e <;> rfl

theorem repairCount_eq_markers (es : List Effect) :
    repairCount es = (invocationMarkers es).countP
      (fun e => match e with | Effect.runRepairAgent _ => true | _ => false) := by
  unfold repairCount invocationMarkers
  rw [List.countP_filter]
  congr 1
  funext e
  cases e <;> rfl

/-- Claim C7, amended.  Per build: at most 3 prebuild invocations, at
most 2 repair-agent invocations, a repair invocation between any two
consecutive prebuild invocations (the invocation subsequence is a
prefix pattern alternating prebuild/repair); when the prebuild fails on
all three attempts, BuildApp returns the error
"Build failed after 3 attempts: <final output>", the terminal `failed`
progress event carries that prefixed message, and the version's stored
`error_message` is the final prebuild output WITHOUT the prefix. -/
theorem buildFixLoop_bounds (versionID : String) (appID : Option String)
    (bo : Nat → Option String) (fo : Nat → String × Option String) :
    invocationMarkers (runBuildFixLoop versionID appID bo fo).1 ∈
      [[Effect.runPrebuild 1],
       [Effect.runPrebuild 1, Effect.runRepairAgent 1],
       [Effect.runPrebuild 1, Effect.runRepairAgent 1, Effect.runPrebuild 2],
       [Effect.runPrebuild 1, Effect.runRepairAgent 1, Effect.runPrebuild 2,
        Effect.runRepairAgent 2],
       [Effect.runPrebuild 1, Effect.runRepairAgent 1, Effect.runPrebuild 2,
        Effect.runRepairAgent 2, Effect.runPrebuild 3]] ∧
    prebuildCount (runBuildFixLoop versionID appID bo fo).1 ≤ 3 ∧
    repairCount (runBuildFixLoop versionID appID bo fo).1 ≤ 2 ∧
    (∀ o3 t1 t2, bo 1 ≠ none → bo 2 ≠ none → bo 3 = some o3 →
       fo 1 = (t1, none) → fo 2 = (t2, none) →
       (runBuildFixLoop versionID appID bo fo).2
           = Except.error ("Build failed after 3 attempts: " ++ o3) ∧
       Effect.publishProgress versionID "failed" ("Build failed after 3 attempts: " ++ o3)
           ∈ (runBuildFixLoop versionID appID bo fo).1 ∧
       Effect.updateVersionStatus versionID "failed" (some o3)
           ∈ (runBuildFixLoop versionID appID bo fo).1) := by
  rcases h1 : bo 1 with _ | o1 <;>
    [skip; rcases hf1 : fo 1 with ⟨t1, ff1⟩]
  · refine ⟨?_, ?_, ?_, ?_⟩
    · simp [runBuildFixLoop, buildFixLoop, h1, invocationMarkers]
    · simp [runBuildFixLoop, buildFixLoop, h1, prebuildCount]
    · simp [runBuildFixLoop, buildFixLoop, h1, repairCount]
    · intro o3 t1 t2 hb1 hb2 hb3 hg1 hg2
      exact absurd rfl hb1
  · cases ff1 with
    | some e1 =>
        refine ⟨?_, ?_, ?_, ?_⟩
        · simp [runBuildFixLoop, buildFixLoop, h1, hf1, invocationMarkers,
            fixBuildErrorsEffects, List.filter_append, filter_markers_handleError]
        · simp [runBuildFixLoop, buildFixLoop, h1, hf1, prebuildCount,
            fixBuildErrorsEffects, List.countP_append, countP_prebuild_handleError]
        · simp [runBuildFixLoop, buildFixLoop, h1, hf1, repairCount,
            fixBuildErrorsEffects, List.countP_append, countP_repair_handleError]
        · intro o3 t1' t2' hb1 hb2 hb3 hg1 hg2
          exact absurd (congrArg Prod.snd hg1) (by simp)
    | none =>
        rcases h2 : bo 2 with _ | o2 <;>
          [skip; rcases hf2 : fo 2 with ⟨t2, ff2⟩]
        · refine ⟨?_, ?_, ?_, ?_⟩
          · simp [runBuildFixLoop, buildFixLoop, h1, hf1, h2, invocationMarkers,
              fixBuildErrorsEffects]
          · simp [runBuildFixLoop, buildFixLoop, h1, hf1, h2, prebuildCount,
              fixBuildErrorsEffects, List.countP_append]
          · simp [runBuildFixLoop, buildFixLoop, h1, hf1, h2, repairCount,
              fixBuildErrorsEffects, List.countP_append]
          · intro o3 t1' t2' hb1 hb2 hb3 hg1 hg2
            exact absurd rfl hb2
        · cases ff2 with
          | some e2 =>
              refine ⟨?_, ?_, ?_, ?_⟩
              · simp [runBuildFixLoop, buildFixLoop, h1, hf1, h2, hf2, invocationMarkers,
                  fixBuildErrorsEffects, List.filter_append, filter_markers_handleError]
              · simp [runBuildFixLoop, buildFixLoop, h1, hf1, h2, hf2, prebuildCount,
                  fixBuildErrorsEffects, List.countP_append, countP_prebuild_handleError]
              · simp [runBuildFixLoop, buildFixLoop, h1, hf1, h2, hf2, repairCount,
                  fixBuildErrorsEffects, List.countP_append, countP_repair_handleError]
              · intro o3 t1' t2' hb1 hb2 hb3 hg1 hg2
                exact absurd (congrArg Prod.snd hg2) (by simp)
          | none =>
              rcases h3 : bo 3 with _ | o3
              · refine ⟨?_, ?_, ?_, ?_⟩
                · simp [runBuildFixLoop, buildFixLoop, h1, hf1, h2, hf2, h3,
                    invocationMarkers, fixBuildErrorsEffects]
                · simp [runBuildFixLoop, buildFixLoop, h1, hf1, h2, hf2, h3,
                    prebuildCount, fixBuildErrorsEffects, List.countP_append]
                · simp [runBuildFixLoop, buildFixLoop, h1, hf1, h2, hf2, h3,
                    repairCount, fixBuildErrorsEffects, List.countP_append]
                · intro o3' t1' t2' hb1 hb2 hb3 hg1 hg2
                  exact Option.noConfusion hb3
              · refine ⟨?_, ?_, ?_, ?_⟩
                · simp [runBuildFixLoop, buildFixLoop, h1, hf1, h2, hf2, h3,
                    invocationMarkers, fixBuildErrorsEffects, List.filter_append,
                    filter_markers_handleError]
                · simp [runBuildFixLoop, buildFixLoop, h1, hf1, h2, hf2, h3,
                    prebuildCount, fixBuildErrorsEffects, List.countP_append,
                    countP_prebuild_handleError]
                · simp [runBuildFixLoop, buildFixLoop, h1, hf1, h2, hf2, h3,
                    repairCount, fixBuildErrorsEffects, List.countP_append,
                    countP_repair_handleError]
                · intro o3' t1' t2' hb1 hb2 hb3 hg1 hg2
                  injection hb3 with hb3
                  subst hb3
                  have hstr :
                      "Build failed after 3 attempts" ++ (": " ++ o3)
                        = "Build failed after 3 attempts: " ++ o3 := by
                    rw [← String.append_assoc]
                    rfl
                  refine ⟨?_, ?_, ?_⟩
                  · simp [runBuildFixLoop, buildFixLoop, h1, hf1, h2, hf2, h3]
                  · rw [← hstr]
                    simp [runBuildFixLoop, buildFixLoop, h1, hf1, h2, hf2, h3,
                      fixBuildErrorsEffects, handleErrorEffects]
                    exact Or.inl hstr
                  · simp [runBuildFixLoop, buildFixLoop, h1, hf1, h2, hf2, h3,
                      fixBuildErrorsEffects, handleErrorEffects]

/-- Witness for the amended C7 theorem at the all-failures scenario. -/
theorem buildFixLoop_bounds_witness :
    prebuildCount (runBuildFixLoop "v1" (some "a1") threeFailures repairsSucceed).1 ≤ 3 ∧
    repairCount (runBuildFixLoop "v1" (some "a1") threeFailures repairsSucceed).1 ≤ 2 ∧
    (runBuildFixLoop "v1" (some "a1") threeFailures repairsSucceed).2
      = Except.error ("Build failed after 3 attempts: " ++ "ERR3") :=
  ⟨(buildFixLoop_bounds "v1" (some "a1") threeFailures repairsSucceed).2.1,
   (buildFixLoop_bounds "v1" (some "a1") threeFailures repairsSucceed).2.2.1,
   ((buildFixLoop_bounds "v1" (some "a1") threeFailures repairsSucceed).2.2.2
      "ERR3" "FIX1" "FIX2" (by decide) (by decide) (by decide) (by decide) (by decide)).1⟩

/-! ## C8: progress-stream termination -/

theorem sseLoop_terminal (msgs : List ChanMsg) :
    terminalFrameCount (sseLoop msgs) ≤ 1 ∧
    (hasTerminalMsg msgs = true →
      terminalFrameCount (sseLoop msgs) = 1 ∧
      ∃ f, (sseLoop msgs).getLast? = some f ∧ f.isTerminal = true) := by
  induction msgs with
  | nil =>
      constructor
      · simp [sseLoop, terminalFrameCount]
      · intro h; simp [hasTerminalMsg] at h
  | cons m rest ih =>
      cases m with
      | malformed payload => simpa [sseLoop, hasTerminalMsg] using ih
      | progress p =>
          by_cases hp : (p.status == "completed" || p.status == "failed") = true
          · constructor
            · simp [sseLoop, hp, terminalFrameCount, List.countP_cons, Frame.isTerminal]
            · intro _
              constructor
              · simp [sseLoop, hp, terminalFrameCount, List.countP_cons, Frame.isTerminal]
              · exact ⟨Frame.event p.versionID p.status p.message,
                  by simp [sseLoop, hp], by simp [Frame.isTerminal, hp]⟩
          · have hseq : sseLoop (ChanMsg.progress p :: rest)
                = Frame.event p.versionID p.status p.message :: sseLoop rest := by
              simp [sseLoop, hp]
            have hterm : (Frame.event p.versionID p.status p.message).isTerminal = false := by
              simpa [Frame.isTerminal] using hp
            constructor
            · rw [hseq]
              simpa [terminalFrameCount, List.countP_cons, hterm] using ih.1
            · intro h
              have h' : hasTerminalMsg rest = true := by
                simpa [hasTerminalMsg, hp] using h
              obtain ⟨hc, f, hl, hf⟩ := ih.2 h'
              refine ⟨?_, f, ?_, hf⟩
              · rw [hseq]
                simpa [terminalFrameCount, List.countP_cons, hterm] using hc
              · rw [hseq]
                cases hsl : sseLoop rest with
                | nil => rw [hsl] at hl; simp at hl
                | cons a l =>
                    rw [hsl] at hl
                    rw [List.getLast?_cons_cons]
                    exact hl

/-- Claim C8.  Per progress-stream connection: at most one terminal
(`completed`/`failed`) frame is ever written; when the version is
already terminal at connect time, the response is exactly one synthetic
terminal event; otherwise, whenever a well-formed terminal event is
delivered, exactly one terminal frame is written and it is the last
frame before the handler returns. -/
theorem sse_terminal_frame_once (status versionID : String) (msgs : List ChanMsg) :
    terminalFrameCount (sseWrites status versionID msgs) ≤ 1 ∧
    ((status == "completed" || status == "failed") = true →
       sseWrites status versionID msgs
         = [Frame.event versionID status ("Build " ++ status)]) ∧
    ((status == "completed" || status == "failed") = false →
       hasTerminalMsg msgs = true →
       terminalFrameCount (sseWrites status versionID msgs) = 1 ∧
       ∃ f, (sseWrites status versionID msgs).getLast? = some f
         ∧ f.isTerminal = true) := by
  by_cases hs : (status == "completed" || status == "failed") = true
  · refine ⟨?_, fun _ => ?_, fun hc _ => absurd hs (by simp [hc])⟩
    · simp [sseWrites, hs, terminalFrameCount, List.countP_cons, Frame.isTerminal]
    · simp [sseWrites, hs]
  · have hs' : (status == "completed" || status == "failed") = false := by
      simpa using hs
    have hw : sseWrites status versionID msgs = Frame.connected :: sseLoop msgs := by
      simp [sseWrites, hs']
    refine ⟨?_, fun h => absurd h hs, fun _ hterm => ?_⟩
    · rw [hw]
      simpa [terminalFrameCount, List.countP_cons, Frame.isTerminal]
        using (sseLoop_terminal msgs).1
    · obtain ⟨hc, f, hl, hf⟩ := (sseLoop_terminal msgs).2 hterm
      refine ⟨?_, f, ?_, hf⟩
      · rw [hw]
        simpa [terminalFrameCount, List.countP_cons, Frame.isTerminal] using hc
      · rw [hw]
        cases hsl : sseLoop msgs with
        | nil => rw [hsl] at hl; simp at hl
        | cons a l =>
            rw [hsl] at hl
            rw [List.getLast?_cons_cons]
            exact hl

/-- Witness for C8 on a build that publishes one `building` event and
then the terminal `completed` event. -/
theorem sse_terminal_frame_once_witness :
    terminalFrameCount (sseWrites "building" "v1"
        [ChanMsg.progress ⟨"v1", "building", "Starting build process..."⟩,
         ChanMsg.progress ⟨"v1", "completed", "Build completed successfully!"⟩]) = 1 :=
  ((sse_terminal_frame_once "building" "v1"
      [ChanMsg.progress ⟨"v1", "building", "Starting build process..."⟩,
       ChanMsg.progress ⟨"v1", "completed", "Build completed successfully!"⟩]).2.2
    (by decide) (by decide)).1

/-- Claim C9.  CreateVersion inserts the new version in status
`pending` with `version_number = 1 + max(existing)` — 1 when the app
has no versions — and that number is strictly greater than (hence
distinct from) every existing `version_number` of the same app. -/
theorem createVersion_assigns_next_number (db : List Version) (newID appID : String) :
    (createVersion db newID appID).1.status = "pending" ∧
    (createVersion db newID appID).1.versionNumber = maxVersionNumber db appID + 1 ∧
    (db.filter (fun v => v.appID == appID) = [] →
       (createVersion db newID appID).1.versionNumber = 1) ∧
    (∀ w ∈ db, w.appID = appID →
       w.versionNumber < (createVersion db newID appID).1.versionNumber) ∧
    (db.filter (fun v => v.appID == appID) ≠ [] →
       ∃ w ∈ db, w.appID = appID ∧
         (createVersion db newID appID).1.versionNumber = w.versionNumber + 1) := by
  refine ⟨rfl, rfl, ?_, ?_, ?_⟩
  · intro h
    show maxVersionNumber db appID + 1 = 1
    unfold maxVersionNumber
    rw [h]
    rfl
  · intro w hw ha
    have hle := maxVersionNumber_ge db appID w hw ha
    show w.versionNumber < maxVersionNumber db appID + 1
    omega
  · intro h
    obtain ⟨w, hw, ha, hm⟩ := maxVersionNumber_attained db appID h
    exact ⟨w, hw, ha,
      by rw [show (createVersion db newID appID).1.versionNumber
               = maxVersionNumber db appID + 1 from rfl, hm]⟩

/-- Witness for C9: an app with one existing version numbered 1 gets a
new `pending` version numbered 2 = 1 + 1. -/
theorem createVersion_assigns_next_number_witness :
    (createVersion [v1Done] "v2new" "a1").1.status = "pending" ∧
    (∃ w ∈ [v1Done], w.appID = "a1" ∧
       (createVersion [v1Done] "v2new" "a1").1.versionNumber = w.versionNumber + 1) ∧
    (createVersion [v1Done] "v2new" "a1").1.versionNumber = 2 :=
  ⟨(createVersion_assigns_next_number [v1Done] "v2new" "a1").1,
   (createVersion_assigns_next_number [v1Done] "v2new" "a1").2.2.2.2 (by decide),
   by decide⟩

/-! ## C10: failed comment submission orphans the created version -/

/-- Claim C10.  When the request carries a non-empty comment-id list
and none of the referenced comments is a draft, the endpoint responds
with an error AFTER the version row was inserted: the build is not
spawned, the comments are unchanged, and the inserted row stays in
status `pending` (nothing rolls it back and its only mutator, BuildApp,
never starts). -/
theorem createVersionEndpoint_orphans_pending_version
    (versions : List Version) (comments : List Comment)
    (appID newID : String) (reqComments : List String)
    (hne : reqComments ≠ [])
    (hnodraft : ∀ c ∈ comments, c.id ∈ reqComments → c.status ≠ "draft") :
    (∃ e, (createVersionEndpoint versions comments appID newID reqComments).response
        = Except.error e) ∧
    (createVersionEndpoint versions comments appID newID reqComments).buildSpawned
        = false ∧
    (createVersionEndpoint versions comments appID newID reqComments).comments
        = comments ∧
    (createVersion versions newID appID).1
        ∈ (createVersionEndpoint versions comments appID newID reqComments).versions ∧
    (createVersion versions newID appID).1.status = "pending" := by
  have hcount : comments.countP
      (fun c => reqComments.contains c.id && c.status == "draft") = 0 := by
    rw [List.countP_eq_zero]
    intro c hc hp
    have hand : reqComments.contains c.id = true ∧ (c.status == "draft") = true := by
      simpa using hp
    have hid : c.id ∈ reqComments := by simpa using hand.1
    have hdraft : c.status = "draft" := by simpa using hand.2
    exact hnodraft c hc hid hdraft
  have hsubmit : submitComments comments reqComments newID
      = Except.error "no draft comments found to submit" := by
    unfold submitComments
    rw [hcount]
    rfl
  have hne' : reqComments.isEmpty = false := by
    cases reqComments with
    | nil => exact absurd rfl hne
    | cons a l => rfl
  refine ⟨⟨"no draft comments found to submit", ?_⟩, ?_, ?_, ?_, rfl⟩
  · simp [createVersionEndpoint, hne', hsubmit, createVersion]
  · simp [createVersionEndpoint, hne', hsubmit, createVersion]
  · simp [createVersionEndpoint, hne', hsubmit, createVersion]
  · simp [createVersionEndpoint, hne', hsubmit, createVersion]

/-- A submitted (non-draft) comment referenced by id. -/
def cSubmitted : Comment :=
  ⟨"c1", "a1", some "v0", "u1", "/", "h1", "make it purple", "submitted"⟩

/-- Witness for C10 at a request referencing one already-submitted
comment. -/
theorem createVersionEndpoint_orphans_pending_version_witness :
    (createVersionEndpoint [] [cSubmitted] "a1" "vNew" ["c1"]).buildSpawned = false ∧
    (createVersion [] "vNew" "a1").1.status = "pending" ∧
    (∃ e, (createVersionEndpoint [] [cSubmitted] "a1" "vNew" ["c1"]).response
        = Except.error e) :=
  ⟨(createVersionEndpoint_orphans_pending_version [] [cSubmitted] "a1" "vNew" ["c1"]
      (by decide) (by decide)).2.1,
   (createVersionEndpoint_orphans_pending_version [] [cSubmitted] "a1" "vNew" ["c1"]
      (by decide) (by decide)).2.2.2.2,
   (createVersionEndpoint_orphans_pending_version [] [cSubmitted] "a1" "vNew" ["c1"]
      (by decide) (by decide)).1⟩

end RapidBuild
